import Mathlib

/-!
Verification of the Veles workflow accessor fragment
(`src/libVeles/src/workflow.cc`).

The fragment consists of three member functions of `Veles::Workflow`:

* `GetUnit(index)`  — bounds-checked lookup into the unit sequence,
  throwing `std::out_of_range("index")` when the index is too large;
* `MaxUnitSize()`   — `std::accumulate` (a left fold) over the unit
  sequence, starting from the first unit's `InputCount()` (or `0` when
  the sequence is empty) and taking the running maximum with each
  unit's `OutputCount()`;
* `mallocf(length)` — `posix_memalign(&ptr, 64, length * sizeof(float))`,
  returning the pointer on status `0` and `nullptr` otherwise.

The embedding below models units and workflows as plain data,
exceptions as `Except`, null pointers as `Option`, and `size_t`
arithmetic as natural numbers reduced modulo `2 ^ 64` where the C++
code can wrap (the byte-size multiplication in `mallocf`).  The
`const`-qualification of `GetUnit` and `MaxUnitSize` is made explicit
by state-passing variants that return the (unchanged) workflow
alongside the result.
-/

namespace Veles

/-- A processing unit: an opaque stage exposing its input and output
element counts, mirroring the `Unit` capability set consumed by
`workflow.cc` (`InputCount()` and `OutputCount()`, both `size_t`). -/
structure Unit where
  InputCount : Nat
  OutputCount : Nat
deriving DecidableEq

/-- The only exception kind thrown by the fragment:
`std::out_of_range` carrying its message string. -/
inductive CppException where
  | out_of_range (msg : String)
deriving DecidableEq

/-- A workflow: the ordered sequence of units (`units_` in the C++
class). -/
structure Workflow where
  units_ : List Unit
deriving DecidableEq

/-- `Workflow::UnitCount()`: the length of the unit sequence. -/
def Workflow.UnitCount (w : Workflow) : Nat :=
  w.units_.length

/-- `Workflow::GetUnit(size_t index) const`: throws
`std::out_of_range("index")` when `index >= UnitCount()`, otherwise
returns `units_[index]`. -/
def Workflow.GetUnit (w : Workflow) (index : Nat) : Except CppException Unit :=
  if h : index ≥ w.UnitCount then
    Except.error (CppException.out_of_range "index")
  else
    Except.ok (w.units_.get ⟨index, Nat.lt_of_not_le h⟩)

/-- The accumulation lambda `max_func` of `Workflow::MaxUnitSize`:
`[](size_t curr, std::shared_ptr<Unit> unit) \x7b return std::max(curr, unit->OutputCount()); \x7d`. -/
def max_func : Nat → Unit → Nat :=
  fun curr unit => max curr unit.OutputCount

/-- `Workflow::MaxUnitSize() const noexcept`: `std::accumulate` (a left
fold) of `max_func` over `units_`, with initial value
`!units_.empty() ? units_.front()->InputCount() : 0`. -/
def Workflow.MaxUnitSize (w : Workflow) : Nat :=
  w.units_.foldl max_func
    (match w.units_ with
      | [] => 0
      | first :: _ => first.InputCount)

/-- `sizeof(float)` on the target platform: 4 bytes. -/
def sizeof_float : Nat := 4

/-- The modulus of `size_t` arithmetic (64-bit target): `2 ^ 64`. -/
def sizeTMod : Nat := 2 ^ 64

/-- The byte count `mallocf` passes to `posix_memalign`:
`length * sizeof(float)` computed in `size_t`, i.e. modulo `2 ^ 64`. -/
def requestedBytes (length : Nat) : Nat :=
  length * sizeof_float % sizeTMod

/-- The observable outcome of a `posix_memalign` call: the returned
status (`0` on success), the address stored through the out-pointer,
and the usable capacity in bytes of the block placed there. -/
structure MemBlock where
  status : Nat
  addr : Nat
  cap : Nat
deriving DecidableEq

/-- A well-behaved aligned allocator, as `posix_memalign` is specified:
whenever it reports success, the address it produced is a multiple of
the requested alignment and the block holds at least the requested
number of bytes. -/
def AlignedAllocator (alloc : Nat → Nat → MemBlock) : Prop :=
  ∀ align size, (alloc align size).status = 0 →
    (alloc align size).addr % align = 0 ∧ size ≤ (alloc align size).cap

/-- `Workflow::mallocf(size_t length)`:
`posix_memalign(&ptr, 64, length * sizeof(float)) == 0 ? static_cast<float*>(ptr) : nullptr`,
parameterised by the allocator; `none` models `nullptr`. -/
def Workflow.mallocf (alloc : Nat → Nat → MemBlock) (length : Nat) : Option Nat :=
  if (alloc 64 (requestedBytes length)).status = 0 then
    some (alloc 64 (requestedBytes length)).addr
  else
    none

/-- An always-succeeding aligned allocator that places every block at
address `0` with capacity exactly the requested size; used as a
concrete instance of `AlignedAllocator`. -/
def zeroAlloc : Nat → Nat → MemBlock :=
  fun _ size => ⟨0, 0, size⟩

/-- State-passing form of the `const` method `GetUnit`: the workflow
comes back with the result, unchanged. -/
def Workflow.GetUnitS (w : Workflow) (index : Nat) :
    Except CppException Unit × Workflow :=
  (w.GetUnit index, w)

/-- State-passing form of the `const noexcept` method `MaxUnitSize`. -/
def Workflow.MaxUnitSizeS (w : Workflow) : Nat × Workflow :=
  (w.MaxUnitSize, w)

/-- State-passing form of `mallocf` relative to a workflow (`mallocf`
never reads or writes `units_`). -/
def Workflow.mallocfS (w : Workflow) (alloc : Nat → Nat → MemBlock)
    (length : Nat) : Option Nat × Workflow :=
  (Workflow.mallocf alloc length, w)

/-- The fold in the spec's words, for comparison with the embedded
`MaxUnitSize`: start from the input size of the first unit (or zero if
the sequence is empty), then fold over every unit's output size taking
the running maximum. -/
def maxUnitSizeSpec (w : Workflow) : Nat :=
  w.units_.foldl (fun running u => max running u.OutputCount)
    (match w.units_ with
      | [] => 0
      | first :: _ => first.InputCount)

/-- The initial accumulator of a left fold of `max_func` is a lower
bound of the fold's value. -/
theorem le_foldl_max_func (l : List Unit) (b : Nat) :
    b ≤ l.foldl max_func b := by
  induction l generalizing b with
  | nil => exact Nat.le_refl b
  | cons u t ih =>
      exact Nat.le_trans (Nat.le_max_left b u.OutputCount) (ih (max b u.OutputCount))

/-- The output count of any list member is a lower bound of a left
fold of `max_func` over the list. -/
theorem out_le_foldl_max_func (l : List Unit) (b : Nat) (u : Unit)
    (h : u ∈ l) : u.OutputCount ≤ l.foldl max_func b := by
  induction l generalizing b with
  | nil => cases h
  | cons a t ih =>
      cases h with
      | head =>
          exact Nat.le_trans (Nat.le_max_right b u.OutputCount)
            (le_foldl_max_func t (max b u.OutputCount))
      | tail _ hmem => exact ih (max b a.OutputCount) hmem

/-- A left fold of `max_func` over a unit list is the left fold of
`max` over the list of output counts. -/
theorem foldl_max_func_eq_map (l : List Unit) (b : Nat) :
    l.foldl max_func b = (l.map Unit.OutputCount).foldl max b := by
  rw [List.foldl_map]
  rfl

/-- C1: `MaxUnitSize()` is exactly the fold that starts from the first
unit's `InputCount` (or zero when the unit sequence is empty) and takes
the running maximum with each unit's `OutputCount` over all units in
order; on a workflow whose units have OutputCounts `[3, 7, 2]` and
whose first unit has InputCount `5`, it returns `7`. -/
theorem maxUnitSize_eq_spec_fold :
    (∀ w : Workflow, w.MaxUnitSize = maxUnitSizeSpec w) ∧
    (Workflow.mk [⟨5, 3⟩, ⟨9, 7⟩, ⟨1, 2⟩]).MaxUnitSize = 7 :=
  ⟨fun _ => rfl, by decide⟩

/-- C2 counterexample: in the workflow `[⟨1, 1⟩, ⟨100, 1⟩]` the second
unit has `InputCount = 100` but `MaxUnitSize()` is `1`, so the result
does not dominate the `InputCount` of every unit. -/
theorem maxUnitSize_not_dominating :
    ¬ (∀ u ∈ (Workflow.mk [⟨1, 1⟩, ⟨100, 1⟩]).units_,
        u.InputCount ≤ (Workflow.mk [⟨1, 1⟩, ⟨100, 1⟩]).MaxUnitSize ∧
        u.OutputCount ≤ (Workflow.mk [⟨1, 1⟩, ⟨100, 1⟩]).MaxUnitSize) := by
  decide

/-- C2 amended: `MaxUnitSize()` is an upper bound of the `OutputCount`
of every unit in the sequence and of the `InputCount` of the first
unit; the `InputCount`s of later units are not taken into account. -/
theorem maxUnitSize_upper_bound (w : Workflow) :
    (∀ u ∈ w.units_, u.OutputCount ≤ w.MaxUnitSize) ∧
    (∀ first rest, w.units_ = first :: rest → first.InputCount ≤ w.MaxUnitSize) := by
  constructor
  · intro u hu
    exact out_le_foldl_max_func w.units_ _ u hu
  · intro first rest hw
    unfold Workflow.MaxUnitSize
    rw [hw]
    exact le_foldl_max_func (first :: rest) first.InputCount

/-- C2 amended, witness at the workflow `[⟨5, 3⟩, ⟨0, 7⟩]`. -/
theorem maxUnitSize_upper_bound_inst :
    (7 : Nat) ≤ (Workflow.mk [⟨5, 3⟩, ⟨0, 7⟩]).MaxUnitSize ∧
    (5 : Nat) ≤ (Workflow.mk [⟨5, 3⟩, ⟨0, 7⟩]).MaxUnitSize :=
  ⟨(maxUnitSize_upper_bound (Workflow.mk [⟨5, 3⟩, ⟨0, 7⟩])).1 ⟨0, 7⟩ (by decide),
   (maxUnitSize_upper_bound (Workflow.mk [⟨5, 3⟩, ⟨0, 7⟩])).2 ⟨5, 3⟩ [⟨0, 7⟩] rfl⟩

/-- C3: for every index below `UnitCount()`, `GetUnit` succeeds and
returns the unit stored at that position of the sequence. -/
theorem getUnit_in_range (w : Workflow) (i : Nat) (h : i < w.UnitCount) :
    w.GetUnit i = Except.ok (w.units_.get ⟨i, h⟩) := by
  unfold Workflow.GetUnit
  rw [dif_neg (Nat.not_le_of_lt h)]

/-- C3, witness: on the workflow `[⟨4, 2⟩, ⟨2, 6⟩]`, `GetUnit 1`
returns the unit at position `1`. -/
theorem getUnit_in_range_inst :
    (Workflow.mk [⟨4, 2⟩, ⟨2, 6⟩]).GetUnit 1 = Except.ok ⟨2, 6⟩ :=
  getUnit_in_range (Workflow.mk [⟨4, 2⟩, ⟨2, 6⟩]) 1 (by decide)

/-- C4: `GetUnit i` results in the `std::out_of_range("index")`
exception, propagated to the caller, exactly when `i ≥ UnitCount()`. -/
theorem getUnit_error_iff (w : Workflow) (i : Nat) :
    w.GetUnit i = Except.error (CppException.out_of_range "index") ↔
      w.UnitCount ≤ i := by
  unfold Workflow.GetUnit
  by_cases h : i ≥ w.UnitCount
  · simp [h]
  · simp [h]

/-- C5: on a workflow with an empty unit sequence `MaxUnitSize()`
returns `0` (and, being total with result type `Nat` — the C++ method
is `noexcept` — it has no failure outcome). -/
theorem maxUnitSize_empty (w : Workflow) (h : w.units_ = []) :
    w.MaxUnitSize = 0 := by
  unfold Workflow.MaxUnitSize
  rw [h]
  rfl

/-- C5, witness: the empty workflow. -/
theorem maxUnitSize_empty_inst : (Workflow.mk []).MaxUnitSize = 0 :=
  maxUnitSize_empty (Workflow.mk []) rfl

/-- C6: `GetUnit` and `MaxUnitSize` are `const`: in the state-passing
reading, the workflow after either call — successful or not — is the
workflow before it. -/
theorem getUnit_maxUnitSize_pure (w : Workflow) (i : Nat) :
    (w.GetUnitS i).2 = w ∧ w.MaxUnitSizeS.2 = w :=
  ⟨rfl, rfl⟩

/-- C7: `mallocf` returns the null pointer exactly when the underlying
aligned allocator reports a non-zero status; failure is never raised
as an exception (the return type carries it) and never swallowed. -/
theorem mallocf_null_iff (alloc : Nat → Nat → MemBlock) (n : Nat) :
    Workflow.mallocf alloc n = none ↔
      (alloc 64 (requestedBytes n)).status ≠ 0 := by
  unfold Workflow.mallocf
  by_cases h : (alloc 64 (requestedBytes n)).status = 0
  · simp [h]
  · simp [h]

/-- C8 counterexample: at `length = 2 ^ 62` the byte count
`length * sizeof(float)` wraps to `0` in `size_t` arithmetic, so even a
well-behaved allocator can succeed with a block of capacity `0`, far
below `2 ^ 62 * sizeof(float)` bytes, and the requested byte size is
not `length * sizeof(float)`. -/
theorem mallocf_wraparound :
    AlignedAllocator zeroAlloc ∧
    Workflow.mallocf zeroAlloc (2 ^ 62) = some 0 ∧
    requestedBytes (2 ^ 62) = 0 ∧
    requestedBytes (2 ^ 62) ≠ 2 ^ 62 * sizeof_float ∧
    ¬ (2 ^ 62 * sizeof_float ≤ (zeroAlloc 64 (requestedBytes (2 ^ 62))).cap) :=
  ⟨fun align size _ => ⟨Nat.zero_mod align, Nat.le_refl size⟩,
   rfl, rfl, by decide, by decide⟩

/-- C8 amended: for every length `n` with `n * sizeof(float) < 2 ^ 64`
(no `size_t` wraparound), the byte size requested from the allocator is
exactly `n * sizeof(float)`, and when the allocation succeeds under a
well-behaved aligned allocator the returned address is a multiple of 64
and the block holds at least `n * sizeof(float)` usable bytes. -/
theorem mallocf_aligned_sized (alloc : Nat → Nat → MemBlock) (n addr : Nat)
    (halloc : AlignedAllocator alloc) (hsize : n * sizeof_float < sizeTMod)
    (h : Workflow.mallocf alloc n = some addr) :
    requestedBytes n = n * sizeof_float ∧
    addr % 64 = 0 ∧ n * sizeof_float ≤ (alloc 64 (requestedBytes n)).cap := by
  have hreq : requestedBytes n = n * sizeof_float := Nat.mod_eq_of_lt hsize
  unfold Workflow.mallocf at h
  by_cases hs : (alloc 64 (requestedBytes n)).status = 0
  · rw [if_pos hs, Option.some.injEq] at h
    obtain ⟨ha, hc⟩ := halloc 64 (requestedBytes n) hs
    exact ⟨hreq, h ▸ ha, hreq ▸ hc⟩
  · rw [if_neg hs] at h
    cases h

/-- C8 amended, witness: allocating `3` floats through `zeroAlloc`. -/
theorem mallocf_aligned_sized_inst :
    requestedBytes 3 = 3 * sizeof_float ∧
    (0 : Nat) % 64 = 0 ∧
    3 * sizeof_float ≤ (zeroAlloc 64 (requestedBytes 3)).cap :=
  mallocf_aligned_sized zeroAlloc 3 0
    (fun align size _ => ⟨Nat.zero_mod align, Nat.le_refl size⟩)
    (by decide) rfl

/-- C9: `UnitCount()` always equals the length of the unit sequence,
the sequence may be empty, and each operation of the fragment leaves
the post-state satisfying the same equality. -/
theorem unitCount_invariant (w : Workflow) (i length : Nat)
    (alloc : Nat → Nat → MemBlock) :
    w.UnitCount = w.units_.length ∧
    ((w.GetUnitS i).2).UnitCount = ((w.GetUnitS i).2).units_.length ∧
    (w.MaxUnitSizeS.2).UnitCount = (w.MaxUnitSizeS.2).units_.length ∧
    ((w.mallocfS alloc length).2).UnitCount =
      ((w.mallocfS alloc length).2).units_.length ∧
    (Workflow.mk []).UnitCount = 0 :=
  ⟨rfl, rfl, rfl, rfl, rfl⟩

/-- C10: only the first unit's `InputCount` and the multiset of all
units' `OutputCount`s determine `MaxUnitSize()`; in particular it is
invariant under permutations keeping the first unit in place, and the
`InputCount`s of units after the first never affect it. -/
theorem maxUnitSize_multiset_determined (u₁ u₂ : Unit) (t₁ t₂ : List Unit)
    (hin : u₁.InputCount = u₂.InputCount)
    (hout : (↑((u₁ :: t₁).map Unit.OutputCount) : Multiset Nat) =
            ↑((u₂ :: t₂).map Unit.OutputCount)) :
    Workflow.MaxUnitSize ⟨u₁ :: t₁⟩ = Workflow.MaxUnitSize ⟨u₂ :: t₂⟩ := by
  have hperm : ((u₁ :: t₁).map Unit.OutputCount).Perm
      ((u₂ :: t₂).map Unit.OutputCount) := Multiset.coe_eq_coe.mp hout
  show (u₁ :: t₁).foldl max_func u₁.InputCount =
    (u₂ :: t₂).foldl max_func u₂.InputCount
  rw [foldl_max_func_eq_map, foldl_max_func_eq_map, hin]
  exact hperm.foldl_eq u₂.InputCount

/-- C10, witness: `⟨5, 3⟩ :: [⟨9, 7⟩, ⟨1, 2⟩]` versus
`⟨5, 3⟩ :: [⟨0, 2⟩, ⟨0, 7⟩]` — same first `InputCount`, same multiset
of `OutputCount`s, different tail `InputCount`s and order. -/
theorem maxUnitSize_multiset_determined_inst :
    Workflow.MaxUnitSize ⟨[⟨5, 3⟩, ⟨9, 7⟩, ⟨1, 2⟩]⟩ =
      Workflow.MaxUnitSize ⟨[⟨5, 3⟩, ⟨0, 2⟩, ⟨0, 7⟩]⟩ :=
  maxUnitSize_multiset_determined ⟨5, 3⟩ ⟨5, 3⟩ [⟨9, 7⟩, ⟨1, 2⟩]
    [⟨0, 2⟩, ⟨0, 7⟩] rfl (by decide)

end Veles
